import Mathlib

/-!
# Verification of the termbrowser session manager

Shallow embedding of the core of `termbrowser` (a browser-reachable terminal
multiplexer): the session registry (`Manager.GetOrCreate` in
`terminal/terminal.go`), the PTY pump, the exit watcher, the WebSocket
connection handoff (`Manager.ServeWebSocket`), the command router
(`Manager.buildCommand` / `buildEnv`) and the protocol-boundary identifier
validation (`Server.handleTerminal` in `server/server.go`).

Go maps become functions into `Option`; the mutex-guarded critical sections
of the Go code become atomic state-transition functions (the Go code holds
the corresponding lock for the whole of each translated section, so any
interleaving of the real program is an interleaving of these atomic steps);
the liveness probe (`isAlive`, a kill(pid, 0) check) and the outcome of
`pty.Start` become boolean oracles passed in as parameters.
-/

namespace Termbrowser

/-- A `*terminal.Session` as the registry stores it.  `sid` models Go
pointer identity (each allocation gets a fresh tag); `seqNo` is the
session sequence number the manager assigns at creation. -/
structure Session where
  sid : Nat
  id : String
  seqNo : Nat
  deriving DecidableEq, Repr

/-- The registry state guarded by `Manager.mu`: the `sessions` map, the
global `nextSeq` counter, and the supply of fresh allocation tags. -/
structure RegState where
  sessions : String → Option Session
  nextSeq : Nat
  nextSid : Nat

/-- Outcome of one call to `GetOrCreate`: an existing live session was
returned, a new session was spawned and stored, or `pty.Start` failed and
the error was returned to the caller. -/
inductive GoCOutcome where
  | reused (s : Session)
  | created (s : Session)
  | spawnFailed
  deriving DecidableEq, Repr

/-- The creation tail of `GetOrCreate` (terminal.go: `m.nextSeq++` through
`m.sessions[id] = s`), still under the exclusive lock.  `spawnOk` is the
outcome of `pty.Start(cmd)`: on failure the error is returned with the map
untouched — but `nextSeq` has already been incremented. -/
def createSession (st : RegState) (spawnOk : Bool) (id : String) :
    RegState × GoCOutcome :=
  let seqNo := st.nextSeq + 1
  if spawnOk then
    let s : Session := ⟨st.nextSid, id, seqNo⟩
    (⟨fun k => if k = id then some s else st.sessions k, seqNo, st.nextSid + 1⟩,
      .created s)
  else
    ({ st with nextSeq := seqNo }, .spawnFailed)

/-- The exclusive-lock section of `GetOrCreate`: re-check the map under the
write lock (double-checked pattern); a live entry is returned as-is,
otherwise the creation tail runs.  `alive` is the liveness probe. -/
def getOrCreateLocked (st : RegState) (alive : Session → Bool)
    (spawnOk : Bool) (id : String) : RegState × GoCOutcome :=
  match st.sessions id with
  | some s => if alive s then (st, .reused s) else createSession st spawnOk id
  | none => createSession st spawnOk id

/-- The shared-lock fast path of `GetOrCreate`: look the id up under the
read lock and return the session if the probe says it is alive. -/
def fastPath (st : RegState) (alive : Session → Bool) (id : String) :
    Option Session :=
  match st.sessions id with
  | some s => if alive s then some s else none
  | none => none

/-- One whole call to `GetOrCreate`.  `stFast` is the registry state the
caller observed at the read-locked fast path, `stLock` the (possibly
different — other callers may have run in between) state at the moment the
exclusive lock was acquired; `aliveFast`/`aliveLock` are the probe's answers
at those two instants.  A fast-path hit returns without ever taking the
exclusive lock, so the registry state is left as it stands. -/
def getOrCreate (stFast stLock : RegState) (aliveFast aliveLock : Session → Bool)
    (spawnOk : Bool) (id : String) : RegState × GoCOutcome :=
  match fastPath stFast aliveFast id with
  | some s => (stLock, .reused s)
  | none => getOrCreateLocked stLock aliveLock spawnOk id

/-- The exit watcher's cleanup section (terminal.go: the goroutine around
`cmd.Wait()`): under the exclusive lock, delete the identifier only if the
map still holds this exact session instance. -/
def exitCleanup (st : RegState) (s : Session) : RegState :=
  match st.sessions s.id with
  | some cur =>
      if cur = s then
        { st with sessions := fun k => if k = s.id then none else st.sessions k }
      else st
  | none => st

/-- A registry mutation, as serialized by `Manager.mu`: either the
exclusive-lock section of a `GetOrCreate` call or an exit watcher's
cleanup.  (The fast path mutates nothing, so it does not appear.) -/
inductive RegOp where
  | goc (alive : Session → Bool) (spawnOk : Bool) (id : String)
  | cleanup (s : Session)

/-- Run one registry mutation; the second component is the session this
step created, if any. -/
def runOp (st : RegState) (op : RegOp) : RegState × Option Session :=
  match op with
  | .goc a ok id =>
      match getOrCreateLocked st a ok id with
      | (st', .created s) => (st', some s)
      | (st', _) => (st', none)
  | .cleanup s => (exitCleanup st s, none)

/-- Run a sequence of registry mutations. -/
def runOps (st : RegState) (ops : List RegOp) : RegState :=
  ops.foldl (fun st op => (runOp st op).1) st

/-- The empty registry, as `NewManager` builds it. -/
def regState0 : RegState := ⟨fun _ => none, 0, 0⟩

/-! ## Go string primitives

Kernel-computable models of the `strings` functions the Go code calls,
written by structural recursion over the character list of a `String` (the
corresponding core-library functions are defined by well-founded recursion
over byte positions and do not reduce under `decide`). -/

/-- `startsWithCh s p`: `p` is a prefix of `s` (character lists). -/
def startsWithCh : List Char → List Char → Bool
  | _, [] => true
  | [], _ :: _ => false
  | c :: cs, p :: ps => c = p && startsWithCh cs ps

/-- `strings.HasPrefix s p`. -/
def strStartsWith (s p : String) : Bool := startsWithCh s.data p.data

/-- `s[n:]` for a Go string (dropping `n` characters; the Go code only
slices after an ASCII literal, where bytes and characters agree). -/
def strDrop (s : String) (n : Nat) : String := ⟨s.data.drop n⟩

/-- Split a character list at its first `/`, if any. -/
def breakSlash : List Char → Option (List Char × List Char)
  | [] => none
  | c :: cs =>
      if c = '/' then some ([], cs)
      else (breakSlash cs).map fun p => (c :: p.1, p.2)

/-- `strings.SplitN(s, "/", 2)`: at most two pieces, the second keeping
any further separators. -/
def splitN2 (s : String) : List String :=
  match breakSlash s.data with
  | some (a, b) => [⟨a⟩, ⟨b⟩]
  | none => [s]

/-- `strings.ReplaceAll(s, ".", "-")`. -/
def replaceDotDash (s : String) : String :=
  ⟨s.data.map fun c => if c = '.' then '-' else c⟩

/-- ASCII lower-casing of one character. -/
def charLower (c : Char) : Char :=
  if 'A' ≤ c ∧ c ≤ 'Z' then Char.ofNat (c.toNat + 32) else c

/-- ASCII lower-casing of a string (Go's JSON decoder matches object keys
to field tags case-insensitively; the tags here are all ASCII). -/
def strLower (s : String) : String := ⟨s.data.map charLower⟩

/-! ## Per-session state: transport, window size, pump -/

/-- The mutable state of one `Session` as its own mutex `Session.mu`
guards it, together with the resources its workers touch: `conn` is the
currently attached WebSocket (tagged by identity, `none` when detached);
`connSeq` the handoff counter; `winCols`/`winRows` the pseudo-terminal's
window size (set through `pty.Setsize`); `ptyOpen` whether `ptmx` is still
open; `procRunning` whether the backing process is still running. -/
structure SessionState where
  conn : Option Nat
  connSeq : Nat
  winCols : Nat
  winRows : Nat
  ptyOpen : Bool
  procRunning : Bool
  deriving DecidableEq, Repr

/-- A session together with the set of WebSocket connections that have
been closed by the handoff (`old.Close()` in `ServeWebSocket`). -/
structure HandoffWorld where
  sess : SessionState
  closed : List Nat
  deriving DecidableEq, Repr

/-- The attach section of `ServeWebSocket` (terminal.go: the locked swap
plus the `old.Close()` that follows): capture the previous connection,
bump `connSeq`, store the new connection, and close the old one. -/
def attachConn (w : HandoffWorld) (c : Nat) : HandoffWorld :=
  let sess' := { w.sess with conn := some c, connSeq := w.sess.connSeq + 1 }
  match w.sess.conn with
  | some o => ⟨sess', o :: w.closed⟩
  | none => ⟨sess', w.closed⟩

/-- The cleanup at the end of `ServeWebSocket`'s read loop: under the
session lock, clear `conn` only if it is still this exact connection. -/
def detachOnExit (st : SessionState) (c : Nat) : SessionState :=
  if st.conn = some c then { st with conn := none } else st

/-- One iteration of the PTY reader goroutine (terminal.go): `n` bytes
were read from the PTY and `readErr` says whether the read returned an
error; if bytes were read and a connection is attached they are written to
it, and `writeFails` is that write's outcome — on failure `conn` is
cleared.  The second component is whether the loop continues: it exits
only on a read error. -/
def pumpStep (st : SessionState) (n : Nat) (readErr writeFails : Bool) :
    SessionState × Bool :=
  let st1 :=
    if 0 < n then
      match st.conn with
      | some _ => if writeFails then { st with conn := none } else st
      | none => st
    else st
  (st1, !readErr)

/-! ## JSON control frames

`ServeWebSocket` feeds every text frame to `json.Unmarshal` targeting the
`resizeMsg` struct `{Type string; Cols, Rows uint16}`.  We embed the parsed
JSON document (`JVal`; a text frame that is not valid JSON is represented
as `none` further below) and translate the decoder's behaviour on this
struct: a document that is not an object (or `null`) is an error; object
keys are matched case-insensitively against the field tags; `null` field
values are no-ops; a string fills `Type`, an integral number in `[0, 2^16)`
fills `Cols`/`Rows`; anything else is a type error; later duplicate keys
override earlier ones; unknown keys are ignored. -/

/-- A parsed JSON value.  `jint` is an integral number; `jfrac` stands for
any non-integral number (which can never decode into a `uint16` or
`string` field, the only field types of `resizeMsg`). -/
inductive JVal where
  | jnull
  | jbool (b : Bool)
  | jint (n : Int)
  | jfrac
  | jstr (s : String)
  | jarr (elems : List JVal)
  | jobj (fields : List (String × JVal))

/-- The decoded `resizeMsg` struct.  `cols`/`rows` are `uint16` in Go;
the decoder below only ever stores values `< 2^16`. -/
structure ResizeMsg where
  type : String
  cols : Nat
  rows : Nat
  deriving DecidableEq, Repr

/-- Decode one object member into the `resizeMsg` being built: Go's
decoder walks the members in order, matching keys to fields
case-insensitively, treating `null` as a no-op, rejecting mistyped values
and skipping unknown keys. -/
def setField (m : ResizeMsg) (k : String) (v : JVal) : Option ResizeMsg :=
  if strLower k = "type" then
    match v with
    | .jstr s => some { m with type := s }
    | .jnull => some m
    | _ => none
  else if strLower k = "cols" then
    match v with
    | .jint n => if 0 ≤ n ∧ n < 65536 then some { m with cols := n.toNat } else none
    | .jnull => some m
    | _ => none
  else if strLower k = "rows" then
    match v with
    | .jint n => if 0 ≤ n ∧ n < 65536 then some { m with rows := n.toNat } else none
    | .jnull => some m
    | _ => none
  else some m

/-- `json.Unmarshal(data, &msg)` for `msg : resizeMsg`, on an
already-parsed document: `null` leaves the zero struct, an object is
decoded member by member starting from the zero struct, and any other
document is a type error. -/
def unmarshalResize (v : JVal) : Option ResizeMsg :=
  match v with
  | .jnull => some ⟨"", 0, 0⟩
  | .jobj fields =>
      fields.foldlM (fun m kv => setField m kv.1 kv.2) (⟨"", 0, 0⟩ : ResizeMsg)
  | _ => none

/-- One inbound WebSocket message as the read loop sees it: a binary
frame, a text frame (`none` when the payload is not valid JSON, otherwise
the parsed document), or a failed `ReadMessage`. -/
inductive Frame where
  | binary (data : List Nat)
  | text (parsed : Option JVal)
  | closed

/-- One iteration of `ServeWebSocket`'s read loop.  Binary frames go to
the PTY (window size untouched); a text frame that unmarshals with
`Type == "resize"` sets the window size to its `Cols`×`Rows`; any
unmarshal failure or other `Type` is silently ignored.  The second
component is whether the loop continues: it breaks only when
`ReadMessage` fails. -/
def recvStep (st : SessionState) (f : Frame) : SessionState × Bool :=
  match f with
  | .closed => (st, false)
  | .binary _ => (st, true)
  | .text parsed =>
      match parsed with
      | none => (st, true)
      | some v =>
          match unmarshalResize v with
          | none => (st, true)
          | some m =>
              if m.type = "resize" then
                ({ st with winCols := m.cols, winRows := m.rows }, true)
              else (st, true)

/-! ## Command router and environment construction -/

/-- `buildEnv` (terminal.go): the ambient environment with every entry
beginning `TERM=` dropped, then `TERM=xterm-256color` appended.  `environ`
stands for `os.Environ()`. -/
def buildEnv (environ : List String) : List String :=
  (environ.filter fun e => !(strStartsWith e "TERM=")) ++ ["TERM=xterm-256color"]

/-- `Manager.nodeAddr`: resolve a node name through the injected resolver,
falling back to the raw name when no resolver is set or it returns "". -/
def nodeAddr (resolve : Option (String → String)) (name : String) : String :=
  match resolve with
  | some f => if f name = "" then name else f name
  | none => name

/-- An `exec.Cmd` as `buildCommand` assembles it: program, arguments and
environment. -/
structure Cmd where
  prog : String
  args : List String
  env : List String
  deriving DecidableEq, Repr

/-- The switch of `Manager.buildCommand`, producing program and argument
list.  The `lxc/`/`qemu/` branches index `parts[1]` of a two-way SplitN;
when the tail holds no separator that index panics in Go, modelled as
`none`. -/
def routeArgv (resolve : Option (String → String)) (id : String) :
    Option (String × List String) :=
  if id = "host" then
    some ("tmux", ["new-session", "-A", "-s", "tb-host", "--", "/bin/bash"])
  else if strStartsWith id "node:" then
    let node := strDrop id 5
    let addr := nodeAddr resolve node
    let session := "tb-" ++ replaceDotDash node
    some ("ssh", ["-tt", "-o", "StrictHostKeyChecking=no", "root@" ++ addr,
      "env", "TERM=xterm-256color",
      "tmux", "new-session", "-A", "-s", session, "--", "/bin/bash"])
  else if strStartsWith id "lxc/" then
    match splitN2 (strDrop id 4) with
    | [node, vmid] =>
        let addr := nodeAddr resolve node
        some ("ssh", ["-tt", "-o", "StrictHostKeyChecking=no", "root@" ++ addr,
          "pct", "exec", vmid, "--",
          "env", "TERM=xterm-256color",
          "tmux", "new-session", "-A", "-s", "tb-" ++ vmid, "--", "/bin/bash"])
    | _ => none
  else if strStartsWith id "qemu/" then
    match splitN2 (strDrop id 5) with
    | [node, vmid] =>
        let addr := nodeAddr resolve node
        some ("ssh", ["-tt", "-o", "StrictHostKeyChecking=no", "root@" ++ addr,
          "qm", "terminal", vmid, "-iface", "serial0"])
    | _ => none
  else
    some ("pct", ["exec", id, "--",
      "env", "TERM=xterm-256color",
      "tmux", "new-session", "-A", "-s", "tb-" ++ id, "--", "/bin/bash"])

/-- `Manager.buildCommand`: the routed invocation with `cmd.Env` set to
`buildEnv()` (the assignment is unconditional, after the switch). -/
def buildCommand (resolve : Option (String → String)) (environ : List String)
    (id : String) : Option Cmd :=
  (routeArgv resolve id).map fun pa => ⟨pa.1, pa.2, buildEnv environ⟩

/-! ## Protocol-boundary identifier validation -/

/-- A non-empty string of ASCII decimal digits. -/
def isDigits (s : String) : Bool :=
  s ≠ "" && s.data.all Char.isDigit

/-- The numeric value of a digit string. -/
def digitsToNat (s : String) : Nat :=
  s.data.foldl (fun n c => n * 10 + (c.toNat - 48)) 0

/-- Whether `strconv.Atoi(s)` succeeds on a 64-bit platform: an optional
sign, then a non-empty run of digits, with the signed value fitting in
`int64`. -/
def atoiOk (s : String) : Bool :=
  if strStartsWith s "-" then
    isDigits (strDrop s 1) && digitsToNat (strDrop s 1) ≤ 2 ^ 63
  else if strStartsWith s "+" then
    isDigits (strDrop s 1) && digitsToNat (strDrop s 1) ≤ 2 ^ 63 - 1
  else
    isDigits s && digitsToNat s ≤ 2 ^ 63 - 1

/-- The validation `Server.handleTerminal` (server.go) applies to the path
value before upgrading the connection: anything other than `"host"`, a
`"node:"`-prefixed id, or a `strconv.Atoi`-parseable string is answered
with `400 invalid terminal id`. -/
def validTerminalId (id : String) : Bool :=
  id = "host" || strStartsWith id "node:" || atoiOk id

/-- Modelled from the spec: the target-identifier grammar of §4.1/§6 that
the protocol boundary is required to accept — `host`, `node:<name>`,
`lxc/<node>/<vmid>`, `qemu/<node>/<vmid>`, and legacy bare `<digits>` —
with `<name>`/`<node>` non-empty and `<vmid>` a digit string. -/
def specGrammar (id : String) : Bool :=
  id = "host"
  || (strStartsWith id "node:" && strDrop id 5 ≠ "")
  || (strStartsWith id "lxc/" &&
        match splitN2 (strDrop id 4) with
        | [node, vmid] => node ≠ "" && isDigits vmid
        | _ => false)
  || (strStartsWith id "qemu/" &&
        match splitN2 (strDrop id 5) with
        | [node, vmid] => node ≠ "" && isDigits vmid
        | _ => false)
  || isDigits id

end Termbrowser

/-! # Claim theorems -/

namespace Termbrowser

/-- Characterization of the creation tail when it reports a created
session: the new session carries the freshly incremented sequence number
and is stored under its identifier, all other identifiers untouched. -/
theorem createSession_created {st : RegState} {ok : Bool} {id : String}
    {st' : RegState} {s : Session}
    (h : createSession st ok id = (st', .created s)) :
    s.seqNo = st.nextSeq + 1 ∧ st'.nextSeq = st.nextSeq + 1 ∧
    st'.sessions id = some s ∧ (∀ k, k ≠ id → st'.sessions k = st.sessions k) := by
  cases ok with
  | false => simp [createSession] at h
  | true =>
      simp only [createSession, if_true] at h
      rw [Prod.mk.injEq] at h
      obtain ⟨h1, h2⟩ := h
      injection h2 with h2
      subst h2
      subst h1
      refine ⟨rfl, rfl, by simp, fun k hk => by simp [hk]⟩

/-- Characterization of a locked `GetOrCreate` section that created a
session: the re-check found no live entry, and the new session (with the
next sequence number) is stored under its identifier. -/
theorem getOrCreateLocked_created {st : RegState} {a : Session → Bool}
    {ok : Bool} {id : String} {st' : RegState} {s : Session}
    (h : getOrCreateLocked st a ok id = (st', .created s)) :
    (∀ t, st.sessions id = some t → a t = false) ∧
    s.seqNo = st.nextSeq + 1 ∧ st'.nextSeq = st.nextSeq + 1 ∧
    st'.sessions id = some s ∧ (∀ k, k ≠ id → st'.sessions k = st.sessions k) := by
  unfold getOrCreateLocked at h
  split at h
  · rename_i t hs
    split at h
    · exact absurd (congrArg Prod.snd h) (by simp)
    · rename_i hat
      obtain ⟨hseq, hnx, hid, hoth⟩ := createSession_created h
      refine ⟨fun t' ht' => ?_, hseq, hnx, hid, hoth⟩
      rw [hs] at ht'; cases ht'; simpa using hat
  · rename_i hs
    obtain ⟨hseq, hnx, hid, hoth⟩ := createSession_created h
    refine ⟨fun t' ht' => ?_, hseq, hnx, hid, hoth⟩
    rw [hs] at ht'; cases ht'

/-- **C1.** For every identifier, at most one Session is reachable from
the registry at any instant, and concurrent calls to `GetOrCreate(id)`
store exactly one spawned process: a call that finds a live entry — on the
shared-lock fast path or on the exclusive-lock re-check — returns that
same Session instance without spawning and leaves the registry as it
stands; a new session is spawned and stored only in the exclusive-lock
section after the re-check found no live entry; and a concurrent caller
whose locked section runs after such a creation reuses the created session
instead of spawning a second process. -/
theorem goc_exactly_one_spawn :
    (∀ (st : RegState) (id : String) (s1 s2 : Session),
        st.sessions id = some s1 → st.sessions id = some s2 → s1 = s2)
    ∧ (∀ stF stL aF aL ok id s, fastPath stF aF id = some s →
        getOrCreate stF stL aF aL ok id = (stL, .reused s))
    ∧ (∀ (st : RegState) a ok id s, st.sessions id = some s → a s = true →
        getOrCreateLocked st a ok id = (st, .reused s))
    ∧ (∀ (st : RegState) a ok id st' s,
        getOrCreateLocked st a ok id = (st', .created s) →
        (∀ t, st.sessions id = some t → a t = false)
          ∧ st'.sessions id = some s
          ∧ (∀ k, k ≠ id → st'.sessions k = st.sessions k))
    ∧ (∀ (st : RegState) a ok id st' s,
        getOrCreateLocked st a true id = (st', .created s) → a s = true →
        getOrCreateLocked st' a ok id = (st', .reused s)) := by
  refine ⟨?_, ?_, ?_, ?_, ?_⟩
  · intro st id s1 s2 h1 h2; rw [h1] at h2; exact Option.some.inj h2
  · intro stF stL aF aL ok id s h
    simp [getOrCreate, h]
  · intro st a ok id s h ha
    simp [getOrCreateLocked, h, ha]
  · intro st a ok id st' s h
    obtain ⟨h1, -, -, h2, h3⟩ := getOrCreateLocked_created h
    exact ⟨h1, h2, h3⟩
  · intro st a ok id st' s h ha
    obtain ⟨-, -, -, h2, -⟩ := getOrCreateLocked_created h
    simp [getOrCreateLocked, h2, ha]

/-- A registry holding one live session for `"host"`. -/
def regState1 : RegState :=
  ⟨fun k => if k = "host" then some ⟨0, "host", 1⟩ else none, 1, 1⟩

/-- Witness for C1: on a registry already holding the `"host"` session,
the locked re-check reuses it without spawning. -/
theorem goc_exactly_one_spawn_witness :
    getOrCreateLocked regState1 (fun _ => true) true "host"
      = (regState1, .reused ⟨0, "host", 1⟩) :=
  goc_exactly_one_spawn.2.2.1 regState1 (fun _ => true) true "host"
    ⟨0, "host", 1⟩ rfl rfl

/-- **C2.** At most one transport is attached to a Session at any instant;
attaching a new transport detaches the previous one (the two happen in the
same locked swap) and closes it; and the receive loop's termination
cleanup clears the Session's transport reference only if the current
transport is still that exact instance, leaving a newer replacement
untouched. -/
theorem transport_single_attach :
    (∀ (st : SessionState) (c1 c2 : Nat),
        st.conn = some c1 → st.conn = some c2 → c1 = c2)
    ∧ (∀ (w : HandoffWorld) (c : Nat),
        (attachConn w c).sess.conn = some c ∧
        (attachConn w c).sess.connSeq = w.sess.connSeq + 1)
    ∧ (∀ (w : HandoffWorld) (c o : Nat), w.sess.conn = some o →
        o ∈ (attachConn w c).closed ∧
        (o ≠ c → (attachConn w c).sess.conn ≠ some o))
    ∧ (∀ (w : HandoffWorld) (c : Nat), w.sess.conn = none →
        (attachConn w c).closed = w.closed)
    ∧ (∀ (st : SessionState) (c : Nat), st.conn = some c →
        detachOnExit st c = { st with conn := none })
    ∧ (∀ (st : SessionState) (c : Nat), st.conn ≠ some c →
        detachOnExit st c = st) := by
  refine ⟨?_, ?_, ?_, ?_, ?_, ?_⟩
  · intro st c1 c2 h1 h2; rw [h1] at h2; exact Option.some.inj h2
  · intro w c; cases hw : w.sess.conn <;> simp [attachConn, hw]
  · intro w c o h
    refine ⟨by simp [attachConn, h], fun hne => ?_⟩
    simp only [attachConn, h]
    simpa using fun hc => hne hc.symm
  · intro w c h; simp [attachConn, h]
  · intro st c h; simp [detachOnExit, h]
  · intro st c h; simp [detachOnExit, h]

/-- Witness for C2: detaching on loop exit clears the exact instance. -/
theorem transport_single_attach_witness :
    detachOnExit ⟨some 7, 2, 80, 24, true, true⟩ 7
      = ⟨none, 2, 80, 24, true, true⟩ :=
  transport_single_attach.2.2.2.2.1 ⟨some 7, 2, 80, 24, true, true⟩ 7 rfl

/-- **C3.** A failed write of PTY output to the attached transport clears
the Session's transport reference but leaves the pseudo-terminal open and
the backing process running, and the pump continues; the pump stops
exactly when its PTY read returns an error. -/
theorem pump_write_failure_nonfatal :
    (∀ (st : SessionState) (n c : Nat), st.conn = some c → 0 < n →
        pumpStep st n false true = ({ st with conn := none }, true))
    ∧ (∀ (st : SessionState) (n : Nat) (readErr writeFails : Bool),
        (pumpStep st n readErr writeFails).1.ptyOpen = st.ptyOpen ∧
        (pumpStep st n readErr writeFails).1.procRunning = st.procRunning)
    ∧ (∀ (st : SessionState) (n : Nat) (readErr writeFails : Bool),
        ((pumpStep st n readErr writeFails).2 = false ↔ readErr = true)) := by
  refine ⟨?_, ?_, ?_⟩
  · intro st n c h hn
    simp [pumpStep, hn, h]
  · intro st n e wf
    by_cases hn : 0 < n <;> cases hc : st.conn <;> cases wf <;>
      simp [pumpStep, hn, hc]
  · intro st n e wf
    cases e <;> simp [pumpStep]

/-- Witness for C3: a concrete write failure detaches the transport and
the pump keeps going. -/
theorem pump_write_failure_nonfatal_witness :
    pumpStep ⟨some 3, 1, 80, 24, true, true⟩ 5 false true
      = (⟨none, 1, 80, 24, true, true⟩, true) :=
  pump_write_failure_nonfatal.1 ⟨some 3, 1, 80, 24, true, true⟩ 5 3 rfl
    (by decide)

end Termbrowser

namespace Termbrowser

/-! ## Registry traces: exit watcher and sequence numbers -/

/-- The creation tail always advances the global sequence counter by one,
whether or not the spawn succeeded. -/
theorem createSession_nextSeq (st : RegState) (ok : Bool) (id : String) :
    (createSession st ok id).1.nextSeq = st.nextSeq + 1 := by
  cases ok <;> simp [createSession]

/-- A locked `GetOrCreate` section never decreases the sequence counter. -/
theorem getOrCreateLocked_nextSeq (st : RegState) (a : Session → Bool)
    (ok : Bool) (id : String) :
    st.nextSeq ≤ (getOrCreateLocked st a ok id).1.nextSeq := by
  unfold getOrCreateLocked
  split
  · split
    · exact le_refl _
    · rw [createSession_nextSeq]; omega
  · rw [createSession_nextSeq]; omega

/-- The exit watcher's cleanup never touches the sequence counter. -/
theorem exitCleanup_nextSeq (st : RegState) (s : Session) :
    (exitCleanup st s).nextSeq = st.nextSeq := by
  unfold exitCleanup
  split
  · split <;> rfl
  · rfl

/-- No registry mutation decreases the sequence counter. -/
theorem runOp_nextSeq (st : RegState) (op : RegOp) :
    st.nextSeq ≤ (runOp st op).1.nextSeq := by
  cases op with
  | goc a ok id =>
      have hle := getOrCreateLocked_nextSeq st a ok id
      rcases hg : getOrCreateLocked st a ok id with ⟨st', out⟩
      rw [hg] at hle
      cases out <;> simpa [runOp, hg] using hle
  | cleanup s => simp [runOp, exitCleanup_nextSeq]

/-- A step that created a session gave it the freshly incremented sequence
number. -/
theorem runOp_created {st : RegState} {op : RegOp} {s : Session}
    (h : (runOp st op).2 = some s) :
    s.seqNo = st.nextSeq + 1 ∧ (runOp st op).1.nextSeq = st.nextSeq + 1 := by
  cases op with
  | goc a ok id =>
      rcases hg : getOrCreateLocked st a ok id with ⟨st', out⟩
      cases out with
      | created t =>
          simp only [runOp, hg] at h ⊢
          injection h with h
          subst h
          obtain ⟨-, hseq, hnx, -, -⟩ := getOrCreateLocked_created hg
          exact ⟨hseq, hnx⟩
      | reused t => simp [runOp, hg] at h
      | spawnFailed => simp [runOp, hg] at h
  | cleanup t => simp [runOp] at h

/-- The sequence counter is monotone along any trace of registry
mutations. -/
theorem runOps_nextSeq (ops : List RegOp) :
    ∀ st : RegState, st.nextSeq ≤ (runOps st ops).nextSeq := by
  induction ops with
  | nil => intro st; exact le_refl _
  | cons op tl ih =>
      intro st
      exact le_trans (runOp_nextSeq st op) (ih (runOp st op).1)

/-- **C4.** The Exit Watcher removes its identifier from the registry only
if the registry still maps that identifier to that exact Session instance
(and removes nothing else); and the global sequence counter is
monotonically increasing and assigned at creation, so every Session
created later in a trace of registry operations has a strictly higher
sequence number than every Session created before it. -/
theorem exit_watcher_and_monotone_seq :
    (∀ (st : RegState) (s : Session), st.sessions s.id = some s →
        (exitCleanup st s).sessions s.id = none ∧
        (∀ k, k ≠ s.id → (exitCleanup st s).sessions k = st.sessions k))
    ∧ (∀ (st : RegState) (s : Session), st.sessions s.id ≠ some s →
        exitCleanup st s = st)
    ∧ (∀ (st : RegState) (ops : List RegOp), st.nextSeq ≤ (runOps st ops).nextSeq)
    ∧ (∀ (st : RegState) (op : RegOp) (s : Session), (runOp st op).2 = some s →
        s.seqNo = st.nextSeq + 1)
    ∧ (∀ (st1 : RegState) (op1 : RegOp) (s1 : Session) (ops : List RegOp)
        (op2 : RegOp) (s2 : Session),
        (runOp st1 op1).2 = some s1 →
        (runOp (runOps (runOp st1 op1).1 ops) op2).2 = some s2 →
        s1.seqNo < s2.seqNo) := by
  refine ⟨?_, ?_, ?_, ?_, ?_⟩
  · intro st s h
    refine ⟨by simp [exitCleanup, h], fun k hk => by simp [exitCleanup, h, hk]⟩
  · intro st s h
    unfold exitCleanup
    split
    · rename_i cur hs
      rw [if_neg fun hcs => h (by rw [hs, hcs])]
    · rfl
  · intro st ops; exact runOps_nextSeq ops st
  · intro st op s h; exact (runOp_created h).1
  · intro st1 op1 s1 ops op2 s2 h1 h2
    obtain ⟨hs1, hnx1⟩ := runOp_created h1
    obtain ⟨hs2, -⟩ := runOp_created h2
    have hmid := runOps_nextSeq ops (runOp st1 op1).1
    omega

/-- Witness for C4: two successive creations on an empty registry get
sequence numbers 1 and 2. -/
theorem exit_watcher_and_monotone_seq_witness :
    (⟨0, "a", 1⟩ : Session).seqNo < (⟨1, "b", 2⟩ : Session).seqNo :=
  exit_watcher_and_monotone_seq.2.2.2.2 regState0
    (.goc (fun _ => true) true "a") ⟨0, "a", 1⟩ []
    (.goc (fun _ => true) true "b") ⟨1, "b", 2⟩ rfl rfl

/-- A locked `GetOrCreate` whose re-check finds no live entry and whose
spawn fails returns the spawn error, with only the sequence counter
advanced. -/
theorem getOrCreateLocked_spawnFail_eq (st : RegState) (a : Session → Bool)
    (id : String) (hdead : ∀ s, st.sessions id = some s → a s = false) :
    getOrCreateLocked st a false id
      = ({ st with nextSeq := st.nextSeq + 1 }, .spawnFailed) := by
  unfold getOrCreateLocked
  split
  · rename_i t hs
    rw [if_neg (by simp [hdead t hs])]
    simp [createSession]
  · simp [createSession]

/-- **C5.** If process/pseudo-terminal creation fails inside
`GetOrCreate`, the call returns the error to the caller, no Session entry
is created in the registry map, and no retry is attempted by the registry
itself (the outcome is the spawn failure, never a created session). -/
theorem spawn_failure_no_entry (st : RegState) (a : Session → Bool) (id : String)
    (hdead : ∀ s, st.sessions id = some s → a s = false) :
    (getOrCreateLocked st a false id).2 = .spawnFailed ∧
    ((getOrCreateLocked st a false id).1).sessions = st.sessions ∧
    (∀ s, (getOrCreateLocked st a false id).2 ≠ .created s) := by
  rw [getOrCreateLocked_spawnFail_eq st a id hdead]
  exact ⟨rfl, rfl, fun s h => GoCOutcome.noConfusion h⟩

/-- Witness for C5: a failed spawn on the empty registry surfaces the
error and stores nothing. -/
theorem spawn_failure_no_entry_witness :
    (getOrCreateLocked regState0 (fun _ => true) false "host").2 = .spawnFailed ∧
    ((getOrCreateLocked regState0 (fun _ => true) false "host").1).sessions
        = regState0.sessions ∧
    (∀ s, (getOrCreateLocked regState0 (fun _ => true) false "host").2
        ≠ .created s) :=
  spawn_failure_no_entry regState0 (fun _ => true) "host"
    (fun _ h => Option.noConfusion h)

/-- **C10.** A `GetOrCreate` call that fails to spawn has nevertheless
already incremented the global sequence counter, and the sessions map is
unchanged by the failed call; a subsequent successful creation therefore
gets sequence number `nextSeq + 2`, skipping the number the failed
attempt consumed (strictly increasing but not necessarily contiguous). -/
theorem failed_spawn_gap (st : RegState) (a : Session → Bool) (id : String)
    (hdead : ∀ s, st.sessions id = some s → a s = false) :
    ((getOrCreateLocked st a false id).1).nextSeq = st.nextSeq + 1 ∧
    ((getOrCreateLocked st a false id).1).sessions = st.sessions ∧
    (∀ (a2 : Session → Bool) (id2 : String) (st2 : RegState) (s2 : Session),
        getOrCreateLocked (getOrCreateLocked st a false id).1 a2 true id2
            = (st2, .created s2) →
        s2.seqNo = st.nextSeq + 2) := by
  rw [getOrCreateLocked_spawnFail_eq st a id hdead]
  refine ⟨rfl, rfl, fun a2 id2 st2 s2 h => ?_⟩
  obtain ⟨-, hseq, -, -, -⟩ := getOrCreateLocked_created h
  exact hseq

/-- Witness for C10: the failed spawn advanced the counter from 0 to 1. -/
theorem failed_spawn_gap_witness :
    ((getOrCreateLocked regState0 (fun _ => true) false "42").1).nextSeq = 0 + 1 :=
  (failed_spawn_gap regState0 (fun _ => true) "42"
    (fun _ h => Option.noConfusion h)).1

end Termbrowser

namespace Termbrowser

/-! ## Control frames: resize handling -/

/-- The well-formed resize frame of the spec's example,
`{"type":"resize","cols":120,"rows":40}`, parsed. -/
def goodResizeFrame : JVal :=
  .jobj [("type", .jstr "resize"), ("cols", .jint 120), ("rows", .jint 40)]

/-- The malformed resize frame of the spec's example,
`{"type":"resize","cols":"x"}`, parsed: `cols` holds a string where the
struct expects a `uint16`. -/
def badResizeFrame : JVal :=
  .jobj [("type", .jstr "resize"), ("cols", .jstr "x")]

/-- A session with an attached transport and an 80×24 window. -/
def sessState0 : SessionState := ⟨some 1, 1, 80, 24, true, true⟩

/-- **C7.** A text frame `{"type":"resize","cols":120,"rows":40}` received
on an attached transport updates the pseudo-terminal's window size to
120×40, while a malformed frame such as `{"type":"resize","cols":"x"}` —
or any text frame that fails to unmarshal or carries an unrecognized
kind — is silently ignored: the window size is unchanged, no error
surfaces, and the receive loop continues. -/
theorem resize_frame_handling :
    (∀ st : SessionState, recvStep st (.text (some goodResizeFrame))
        = ({ st with winCols := 120, winRows := 40 }, true))
    ∧ (∀ st : SessionState, recvStep st (.text (some badResizeFrame)) = (st, true))
    ∧ (∀ st : SessionState, recvStep st (.text none) = (st, true))
    ∧ (∀ (st : SessionState) (v : JVal), unmarshalResize v = none →
        recvStep st (.text (some v)) = (st, true))
    ∧ (∀ (st : SessionState) (v : JVal) (m : ResizeMsg),
        unmarshalResize v = some m → m.type ≠ "resize" →
        recvStep st (.text (some v)) = (st, true)) := by
  refine ⟨?_, ?_, ?_, ?_, ?_⟩
  · intro st
    have h : unmarshalResize goodResizeFrame = some ⟨"resize", 120, 40⟩ := by decide
    simp [recvStep, h]
  · intro st
    have h : unmarshalResize badResizeFrame = none := by decide
    simp [recvStep, h]
  · intro st; rfl
  · intro st v h; simp [recvStep, h]
  · intro st v m h hm; simp [recvStep, h, hm]

/-- Witness for C7: a parseable frame of an unrecognized kind is ignored
and the loop continues. -/
theorem resize_frame_handling_witness :
    recvStep sessState0 (.text (some (.jobj [("type", .jstr "ping")])))
      = (sessState0, true) :=
  resize_frame_handling.2.2.2.2 sessState0 (.jobj [("type", .jstr "ping")])
    ⟨"ping", 0, 0⟩ (by decide) (by decide)

/-- Decoding one member whose key is not `cols` leaves the `cols` field
of the struct alone. -/
theorem setField_cols_of_ne {m0 m1 : ResizeMsg} {k : String} {v : JVal}
    (h1 : strLower k ≠ "cols") (hf : setField m0 k v = some m1) :
    m1.cols = m0.cols := by
  unfold setField at hf
  by_cases ht : strLower k = "type"
  · rw [if_pos ht] at hf
    cases v with
    | jnull => injection hf with h; subst h; rfl
    | jstr s => injection hf with h; subst h; rfl
    | jbool b => exact Option.noConfusion hf
    | jint n => exact Option.noConfusion hf
    | jfrac => exact Option.noConfusion hf
    | jarr xs => exact Option.noConfusion hf
    | jobj fs => exact Option.noConfusion hf
  · rw [if_neg ht, if_neg h1] at hf
    by_cases hr : strLower k = "rows"
    · rw [if_pos hr] at hf
      cases v with
      | jnull => injection hf with h; subst h; rfl
      | jint n =>
          have hf' : (if 0 ≤ n ∧ n < 65536 then
              some { m0 with rows := n.toNat } else none) = some m1 := hf
          split at hf'
          · injection hf' with h; subst h; rfl
          · exact Option.noConfusion hf'
      | jstr s => exact Option.noConfusion hf
      | jbool b => exact Option.noConfusion hf
      | jfrac => exact Option.noConfusion hf
      | jarr xs => exact Option.noConfusion hf
      | jobj fs => exact Option.noConfusion hf
    · rw [if_neg hr] at hf
      injection hf with h; subst h; rfl

/-- Decoding one member whose key is not `rows` leaves the `rows` field
of the struct alone. -/
theorem setField_rows_of_ne {m0 m1 : ResizeMsg} {k : String} {v : JVal}
    (h2 : strLower k ≠ "rows") (hf : setField m0 k v = some m1) :
    m1.rows = m0.rows := by
  unfold setField at hf
  by_cases ht : strLower k = "type"
  · rw [if_pos ht] at hf
    cases v with
    | jnull => injection hf with h; subst h; rfl
    | jstr s => injection hf with h; subst h; rfl
    | jbool b => exact Option.noConfusion hf
    | jint n => exact Option.noConfusion hf
    | jfrac => exact Option.noConfusion hf
    | jarr xs => exact Option.noConfusion hf
    | jobj fs => exact Option.noConfusion hf
  · rw [if_neg ht] at hf
    by_cases hc : strLower k = "cols"
    · rw [if_pos hc] at hf
      cases v with
      | jnull => injection hf with h; subst h; rfl
      | jint n =>
          have hf' : (if 0 ≤ n ∧ n < 65536 then
              some { m0 with cols := n.toNat } else none) = some m1 := hf
          split at hf'
          · injection hf' with h; subst h; rfl
          · exact Option.noConfusion hf'
      | jstr s => exact Option.noConfusion hf
      | jbool b => exact Option.noConfusion hf
      | jfrac => exact Option.noConfusion hf
      | jarr xs => exact Option.noConfusion hf
      | jobj fs => exact Option.noConfusion hf
    · rw [if_neg hc, if_neg h2] at hf
      injection hf with h; subst h; rfl

/-- Decoding an object with no `cols` key leaves `cols` at the
accumulator's value, and likewise for `rows`. -/
theorem setFields_missing_key (fields : List (String × JVal)) :
    ∀ (m0 m : ResizeMsg),
      fields.foldlM (fun m kv => setField m kv.1 kv.2) m0 = some m →
      ((∀ kv ∈ fields, strLower kv.1 ≠ "cols") → m.cols = m0.cols) ∧
      ((∀ kv ∈ fields, strLower kv.1 ≠ "rows") → m.rows = m0.rows) := by
  induction fields with
  | nil =>
      intro m0 m h
      injection h with h; subst h; exact ⟨fun _ => rfl, fun _ => rfl⟩
  | cons kv tl ih =>
      intro m0 m h
      rw [List.foldlM_cons] at h
      cases hf : setField m0 kv.1 kv.2 with
      | none => rw [hf] at h; exact Option.noConfusion h
      | some m1 =>
          rw [hf] at h
          have h' : tl.foldlM (fun m kv => setField m kv.1 kv.2) m1 = some m := h
          obtain ⟨ihc, ihr⟩ := ih m1 m h'
          constructor
          · intro hk
            have hc1 := setField_cols_of_ne (hk kv (List.mem_cons_self kv tl)) hf
            have hc2 := ihc fun kv' hkv' => hk kv' (List.mem_cons_of_mem kv hkv')
            exact hc2.trans hc1
          · intro hk
            have hr1 := setField_rows_of_ne (hk kv (List.mem_cons_self kv tl)) hf
            have hr2 := ihr fun kv' hkv' => hk kv' (List.mem_cons_of_mem kv hkv')
            exact hr2.trans hr1

/-- **C9.** A text frame that unmarshals with type `"resize"` but whose
`cols` or `rows` members are absent still applies the resize, using the
struct's zero value for each missing field — the window size becomes as
little as 0×0 — rather than the frame being ignored. -/
theorem resize_missing_fields_zero (fields : List (String × JVal)) (m : ResizeMsg)
    (hm : unmarshalResize (.jobj fields) = some m) :
    ((∀ kv ∈ fields, strLower kv.1 ≠ "cols") → m.cols = 0) ∧
    ((∀ kv ∈ fields, strLower kv.1 ≠ "rows") → m.rows = 0) ∧
    (m.type = "resize" → ∀ st : SessionState,
        recvStep st (.text (some (.jobj fields)))
          = ({ st with winCols := m.cols, winRows := m.rows }, true)) := by
  obtain ⟨hc, hr⟩ := setFields_missing_key fields ⟨"", 0, 0⟩ m hm
  refine ⟨hc, hr, fun htyp st => ?_⟩
  simp [recvStep, hm, htyp]

/-- Witness for C9: `{"type":"resize"}` resizes the window to 0×0. -/
theorem resize_missing_fields_zero_witness :
    recvStep sessState0 (.text (some (.jobj [("type", JVal.jstr "resize")])))
      = ({ sessState0 with winCols := 0, winRows := 0 }, true) :=
  (resize_missing_fields_zero [("type", JVal.jstr "resize")] ⟨"resize", 0, 0⟩
    (by decide)).2.2 rfl sessState0

/-! ## Environment construction and boundary validation -/

/-- **C8.** The environment of every command built by the router equals
the ambient environment with all `TERM=`-prefixed entries removed and
exactly one entry `TERM=xterm-256color` appended at the end, the relative
order of all other entries preserved: the `TERM=` entries of the result
are exactly the one appended value, dropping the last element recovers
precisely the non-`TERM=` ambient entries in order, and every routed
command carries this environment. -/
theorem env_term_control (environ : List String)
    (resolve : Option (String → String)) (id : String) :
    (buildEnv environ).filter (fun e => strStartsWith e "TERM=")
        = ["TERM=xterm-256color"]
    ∧ (buildEnv environ).dropLast
        = environ.filter (fun e => !(strStartsWith e "TERM="))
    ∧ (buildEnv environ).getLast? = some "TERM=xterm-256color"
    ∧ (∀ c : Cmd, buildCommand resolve environ id = some c →
        c.env = buildEnv environ) := by
  refine ⟨?_, ?_, ?_, ?_⟩
  · rw [buildEnv, List.filter_append]
    have h1 : (environ.filter fun e => !(strStartsWith e "TERM=")).filter
        (fun e => strStartsWith e "TERM=") = [] := by
      refine List.filter_eq_nil_iff.mpr fun a ha => ?_
      have := (List.mem_filter.mp ha).2
      simpa using this
    rw [h1]
    simp [show strStartsWith "TERM=xterm-256color" "TERM=" = true from by decide]
  · rw [buildEnv, List.dropLast_concat]
  · rw [buildEnv, List.getLast?_concat]
  · intro c h
    rcases hr : routeArgv resolve id with _ | pa
    · rw [buildCommand, hr] at h; exact Option.noConfusion h
    · rw [buildCommand, hr] at h
      injection h with h
      subst h
      rfl

/-- Witness for C8: the routed `host` command carries the rebuilt
environment. -/
theorem env_term_control_witness :
    ({ prog := "tmux", args := ["new-session", "-A", "-s", "tb-host", "--", "/bin/bash"],
       env := buildEnv ["PATH=/bin", "TERM=screen"] } : Cmd).env
      = buildEnv ["PATH=/bin", "TERM=screen"] :=
  (env_term_control ["PATH=/bin", "TERM=screen"] none "host").2.2.2 _ rfl

/-- **C6** (divergence record).  The protocol-boundary validation of
`Server.handleTerminal` does not implement the spec's target grammar:
`lxc/pve/101` and `qemu/pve/100` are in the grammar yet rejected with
`invalid terminal id`, while `-42` is outside the grammar (no bare-digit
form allows a sign) yet accepted and forwarded; `host`, `node:<name>` and
bare digits agree on both sides. -/
theorem boundary_validation_vs_grammar :
    specGrammar "lxc/pve/101" = true ∧ validTerminalId "lxc/pve/101" = false ∧
    specGrammar "qemu/pve/100" = true ∧ validTerminalId "qemu/pve/100" = false ∧
    specGrammar "-42" = false ∧ validTerminalId "-42" = true ∧
    validTerminalId "host" = true ∧ validTerminalId "node:pve2" = true ∧
    validTerminalId "101" = true ∧ specGrammar "101" = true := by
  decide

end Termbrowser
